import Mathlib

attribute [local semireducible] Rat.add Rat.sub Rat.mul Rat.inv Rat.ofScientific

set_option maxRecDepth 200000
set_option maxHeartbeats 4000000

/-!
# Verification of the move-forecast service

Shallow embedding of the two core components of the repository:

* `precompute_percentages.py` — the offline aggregator that derives, for every
  (branch, move type, month, day) combination, the historical percentage of the
  branch total attributable to that move type, with batch upserts and a
  resumable checkpoint;
* `main.py` — the online forecast blender (`forecast_move` together with
  `fetch_historical_percentages`) that combines a per-branch raw forecast with
  the stored seasonal percentage and classifies deviations from history.

Modelling conventions:

* Calendar dates are embedded as triples (year, month, day) together with a
  bijection to day numbers (the standard civil-calendar algorithms), so that
  timestamp arithmetic (`timedelta`, `date_range`, comparisons) becomes
  integer arithmetic on day numbers.
* Python / numpy floating point arithmetic is idealised as exact rational
  arithmetic over `Rat`; `round` is embedded as round-half-to-even, which is
  the behaviour of both Python `round` and `numpy.round`.
* Database tables are embedded as lists of rows (source tables) or as keyed
  maps (the `historical_percentages` table, whose primary key makes it a map
  from keys to values; `INSERT .. ON CONFLICT DO UPDATE` is the pointwise
  update of that map).
* The Prophet model of a branch is an opaque deterministic predictor, a
  function from a day number to a rational `yhat`.
-/

/-! ## Calendar dates -/

/-- A calendar date, as carried by a pandas `Timestamp` normalised to
midnight. -/
structure Date where
  year : Nat
  month : Nat
  day : Nat
deriving DecidableEq

/-- Gregorian leap-year test. -/
def isLeapYear (y : Nat) : Bool :=
  (y % 4 == 0 && y % 100 != 0) || y % 400 == 0

/-- Number of days in a month of a given year. -/
def daysInMonth (y m : Nat) : Nat :=
  if m == 2 then (if isLeapYear y then 29 else 28)
  else if m == 4 || m == 6 || m == 9 || m == 11 then 30
  else 31

/-- Validity of a calendar date, as enforced by `pandas.to_datetime`. -/
def isValidDate (y m d : Nat) : Bool :=
  decide (1 ≤ m) && decide (m ≤ 12) && decide (1 ≤ d) && decide (d ≤ daysInMonth y m)

/-- Day number of a date (days since 0000-03-01 of the proleptic Gregorian
calendar); the standard civil-from-date algorithm used so that timestamp
differences and `timedelta` shifts become integer arithmetic. -/
def toDayNumber (dt : Date) : Nat :=
  let y := if dt.month ≤ 2 then dt.year - 1 else dt.year
  let era := y / 400
  let yoe := y % 400
  let mp := if 2 < dt.month then dt.month - 3 else dt.month + 9
  let doy := (153 * mp + 2) / 5 + (dt.day - 1)
  let doe := yoe * 365 + yoe / 4 - yoe / 100 + doy
  era * 146097 + doe

/-- Inverse of `toDayNumber`: the date of a given day number (standard
date-from-civil algorithm). -/
def civilOfDay (z : Nat) : Date :=
  let era := z / 146097
  let doe := z % 146097
  let yoe := (doe - doe / 1460 + doe / 36524 - doe / 146096) / 365
  let y := yoe + era * 400
  let doy := doe - (365 * yoe + yoe / 4 - yoe / 100)
  let mp := (5 * doy + 2) / 153
  let d := doy + 1 - (153 * mp + 2) / 5
  let m := if mp < 10 then mp + 3 else mp - 9
  { year := if m ≤ 2 then y + 1 else y, month := m, day := d }

/-- Splitting of a character list at every occurrence of a separator. -/
def splitOnChar (sep : Char) : List Char → List (List Char)
  | [] => [[]]
  | c :: cs =>
    let rest := splitOnChar sep cs
    if c == sep then [] :: rest
    else
      match rest with
      | [] => [[c]]
      | g :: gs => (c :: g) :: gs

/-- A nonempty run of decimal digits read as a number, `none` otherwise. -/
def digitsToNatAux : List Char → Nat → Option Nat
  | [], acc => some acc
  | c :: cs, acc =>
    if 48 ≤ c.toNat && c.toNat ≤ 57 then digitsToNatAux cs (acc * 10 + (c.toNat - 48))
    else none

/-- A nonempty all-digit character group as a number, `none` otherwise. -/
def parseNatDigits : List Char → Option Nat
  | [] => none
  | c :: cs => digitsToNatAux (c :: cs) 0

/-- Parsing of an input date string in the `%Y-%m-%d` format expected by
`pd.to_datetime(input_date, format=..)` in `forecast_move`: three dash
separated digit groups forming a valid calendar date; `none` models the
`ValueError` raised on a malformed or calendar-invalid date. -/
def parseDate (s : String) : Option Date :=
  match splitOnChar ('-') s.data with
  | [ys, ms, ds] =>
    match parseNatDigits ys, parseNatDigits ms, parseNatDigits ds with
    | some y, some m, some d =>
      if isValidDate y m d then some { year := y, month := m, day := d } else none
    | _, _, _ => none
  | _ => none

/-! ## Python rounding -/

/-- Round half to even on rationals: the rounding performed by Python
`round(x)` and by `numpy.round` (idealising float64 values as rationals). -/
def pyRound (q : Rat) : Int :=
  let f : Int := ⌊q⌋
  let r : Rat := q - f
  if r < 1/2 then f
  else if 1/2 < r then f + 1
  else if f % 2 = 0 then f else f + 1

/-! ## The historical_percentages table and its lookup (main.py) -/

/-- One row of the `historical_percentages` table (schema created by
`precompute_percentages.py`: branch, move_type, month, day, avg_percentage). -/
structure PRow where
  branch : String
  moveType : String
  month : Nat
  day : Nat
  avgPercentage : Rat
deriving DecidableEq

/-- The `historical_percentages` table as read by `main.py`. -/
abbrev PTable := List PRow

/-- `fetch_historical_percentages` of `main.py`: the day-specific percentage
if a row for (branch, move_type, month, day) exists, else the monthly average
(`SELECT AVG(avg_percentage) .. WHERE branch, move_type, month`) if the month
has any rows, else the minimal percentage 1.0. -/
def fetchHistoricalPercentages (table : PTable) (branch moveType : String)
    (month day : Nat) : Rat :=
  match table.find? (fun r =>
      r.branch == branch && r.moveType == moveType && r.month == month && r.day == day) with
  | some r => r.avgPercentage
  | none =>
    let monthRows := table.filter (fun r =>
      r.branch == branch && r.moveType == moveType && r.month == month)
    if monthRows.isEmpty then 1
    else (monthRows.map (fun r => r.avgPercentage)).sum / monthRows.length

/-! ## The forecast blender (forecast_move of main.py) -/

/-- A pre-trained per-branch Prophet model, abstracted as an opaque
deterministic predictor from a calendar day number to the raw `yhat` value. -/
abbrev Predictor := Nat → Rat

/-- The contents of the in-memory `model_cache`: branch name to predictor. -/
abbrev ModelCache := List (String × Predictor)

/-- The per-day branch forecast: `yhat` clipped to at least 0 and rounded to
an integer (`forecast.Count.clip(lower=0).round().astype(int)`). -/
def rawCount (model : Predictor) (d : Nat) : Int :=
  pyRound (max 0 (model d))

/-- The hard horizon `2025-12-31` that both the input date and the window end
are checked against in `forecast_move`. -/
def horizonDN : Nat := toDayNumber { year := 2025, month := 12, day := 31 }

/-- `pd.date_range(start, end, freq="D")` as a list of day numbers (inclusive
on both ends, empty when the end precedes the start). -/
def dateRange (s e : Int) : List Int :=
  (List.range (e + 1 - s).toNat).map (fun i => s + i)

/-- Window start of step 5 of `forecast_move`: `today` when the requested
date is at most 7 days from today, otherwise requested date minus 7 days. -/
def windowStartD (today dn : Nat) : Int :=
  if (dn : Int) - today ≤ 7 then today else (dn : Int) - 7

/-- Window end of step 5 of `forecast_move`: `today + 14` or requested date
plus 7 days, then clamped to the hard horizon. -/
def windowEndD (today dn : Nat) : Int :=
  let e : Int := if (dn : Int) - today ≤ 7 then (today : Int) + 14 else (dn : Int) + 7
  if (horizonDN : Int) < e then horizonDN else e

/-- The emitted forecast days: the window days with days strictly before
today dropped (`forecast = forecast[forecast.ds >= today]`). -/
def emittedDates (today dn : Nat) : List Int :=
  (dateRange (windowStartD today dn) (windowEndD today dn)).filter
    (fun d => (today : Int) ≤ d)

/-- Which phrase set a per-day (or summary) comment is drawn from.  The
`random.choice` inside each set is cosmetic; the semantic content of a
comment is the set it is drawn from, so comments are embedded as the set. -/
inductive CommentTier where
  | consistent
  | stronger
  | weaker
  | noMoveType
deriving DecidableEq

/-- One element of `predicted_summary`: date, `predicted_moves`, and the
phrase set of the comment. -/
structure DayForecast where
  date : Int
  predictedMoves : Int
  comment : CommentTier
deriving DecidableEq

/-- The result dictionary of `forecast_move`. -/
structure ForecastResult where
  branch : String
  moveType : Option String
  windowStart : Int
  windowEnd : Int
  predictedSummary : List DayForecast
  totalPredictedMoves : Int
  averageDailyMoves : Int
  summaryComment : CommentTier
deriving DecidableEq

/-- The request body of the `/forecast/` endpoint (`ForecastInput`). -/
structure ForecastInput where
  date : String
  branch : String
  moveType : Option String
deriving DecidableEq

/-- Step 6 of `forecast_move`: the single historical percentage of the
requested date (100 when no move type was requested). -/
def requestPercentage (table : PTable) (branch : String) (moveType : Option String)
    (dt : Date) : Rat :=
  match moveType with
  | some mt => fetchHistoricalPercentages table branch mt dt.month dt.day
  | none => 100

/-- One iteration of the per-day loop of step 7 of `forecast_move`: blend the
branch forecast of the day with the request percentage, and classify the
comment.  The source guards `if hist_avg is None: hist_avg = percentage`,
but `fetch_historical_percentages` always returns a number, so the guard
never fires and `hist_avg` is always the three-tier lookup of the day. -/
def blendDay (table : PTable) (model : Predictor) (percentage : Rat)
    (branch : String) (moveType : Option String) (d : Int) : DayForecast :=
  let branchForecast := rawCount model d.toNat
  let finalForecast := pyRound (percentage / 100 * branchForecast)
  let comment :=
    match moveType with
    | none => CommentTier.noMoveType
    | some mt =>
      let dd := civilOfDay d.toNat
      let histAvg := fetchHistoricalPercentages table branch mt dd.month dd.day
      let implied : Rat :=
        if 0 < branchForecast then (finalForecast : Rat) / branchForecast * 100 else 0
      let percentageDiff := implied - histAvg
      if |percentageDiff| ≤ 5 then CommentTier.consistent
      else if 5 < percentageDiff then CommentTier.stronger
      else CommentTier.weaker
  { date := d, predictedMoves := finalForecast, comment := comment }

/-- Steps 5–8 of `forecast_move` (window, raw forecast, percentage blend,
per-day comments, totals and summary comment), for a request that passed all
validations; `dt` is the parsed request date and `model` the cached
predictor of the branch. -/
def forecastCore (table : PTable) (model : Predictor) (today : Nat)
    (dt : Date) (branch : String) (moveType : Option String) : ForecastResult :=
  let dn := toDayNumber dt
  let startD := windowStartD today dn
  let endD := windowEndD today dn
  let emitted := emittedDates today dn
  let percentage := requestPercentage table branch moveType dt
  let days := emitted.map (blendDay table model percentage branch moveType)
  let totalPredictedMoves : Int := (days.map (fun x => x.predictedMoves)).sum
  let totalBranchForecast : Int := (emitted.map (fun d => rawCount model d.toNat)).sum
  let averageDailyMoves : Int :=
    if days.isEmpty then 0 else pyRound ((totalPredictedMoves : Rat) / days.length)
  let summaryComment :=
    match moveType with
    | none => CommentTier.noMoveType
    | some mt =>
      let currentPercentage : Rat :=
        if 0 < totalBranchForecast then (totalPredictedMoves : Rat) / totalBranchForecast * 100
        else 0
      let hists := ((dateRange startD endD).filter (fun d => (today : Int) ≤ d)).map
        (fun d =>
          let dd := civilOfDay d.toNat
          fetchHistoricalPercentages table branch mt dd.month dd.day)
      let historicalPeriodAvg : Rat :=
        if hists.isEmpty then percentage else hists.sum / hists.length
      let periodPercentageDiff := currentPercentage - historicalPeriodAvg
      if |periodPercentageDiff| ≤ 5 then CommentTier.consistent
      else if 5 < periodPercentageDiff then CommentTier.stronger
      else CommentTier.weaker
  { branch := branch
    moveType := moveType
    windowStart := startD
    windowEnd := endD
    predictedSummary := days
    totalPredictedMoves := totalPredictedMoves
    averageDailyMoves := averageDailyMoves
    summaryComment := summaryComment }

/-- Step 3 of `forecast_move`: a supplied move type is invalid when it is not
among the distinct move types of `historical_percentages`; an absent move
type is never invalid. -/
def moveTypeInvalid (table : PTable) (moveType : Option String) : Bool :=
  match moveType with
  | some mt => !((table.map (fun r => r.moveType)).contains mt)
  | none => false

/-- `forecast_move` of `main.py`.  Every failure in the source is raised as a
`ValueError` carrying a message (the outer handler even rewraps any other
exception as `ValueError`), so the error type of the embedding is the message
string.  Validation steps 1–4 in source order: date format, hard horizon,
branch against `historical_percentages`, move type against
`historical_percentages`, model presence in `model_cache`.  (The interpolated
lists of valid values in two of the messages are elided.) -/
def forecastMove (table : PTable) (models : ModelCache) (today : Nat)
    (inp : ForecastInput) : Except String ForecastResult :=
  match parseDate inp.date with
  | none => .error ("Invalid date format. Use YYYY-MM-DD")
  | some dt =>
    if horizonDN < toDayNumber dt then
      .error ("Date must be on or before December 31, 2025")
    else if !((table.map (fun r => r.branch)).contains inp.branch) then
      .error ("Branch " ++ inp.branch ++ " not found")
    else if moveTypeInvalid table inp.moveType then
      .error ("Invalid MoveType")
    else
      match models.lookup inp.branch with
      | none => .error ("No pre-trained model for branch " ++ inp.branch)
      | some model => .ok (forecastCore table model today dt inp.branch inp.moveType)

/-- The HTTP status produced by `forecast_endpoint`: `ValueError` (the only
error `forecast_move` raises) is turned into an HTTP 400, success into 200. -/
def forecastEndpointStatus (table : PTable) (models : ModelCache) (today : Nat)
    (inp : ForecastInput) : Nat :=
  match forecastMove table models today inp with
  | .ok _ => 200
  | .error _ => 400

/-! ## The percentage aggregator (precompute_percentages.py) -/

/-- One loaded row of `move_df` after date conversion and month/day
extraction (`move_df.Month`, `move_df.Day`); the year filter 2021–2024 was
applied by the loading query. -/
structure MoveRec where
  branch : String
  moveType : String
  month : Nat
  day : Nat
  count : Rat
deriving DecidableEq

/-- One loaded row of `historical_df` after date conversion and month/day
extraction; the year filter 2021–2024 was applied by the loading query. -/
structure HistRec where
  branch : String
  month : Nat
  day : Nat
  count : Rat
deriving DecidableEq

/-- The two source extracts the aggregator works from. -/
structure SourceData where
  moveDf : List MoveRec
  historicalDf : List HistRec
deriving DecidableEq

/-- Grouping key of `move_df.groupby(["Branch", "MoveType", "Month", "Day"])`. -/
structure MoveKey where
  branch : String
  moveType : String
  month : Nat
  day : Nat
deriving DecidableEq

/-- Grouping key of `historical_df.groupby(["Branch", "Month", "Day"])`. -/
structure HistKey where
  branch : String
  month : Nat
  day : Nat
deriving DecidableEq

/-- The grouping key of a `move_df` row. -/
def moveKeyOf (r : MoveRec) : MoveKey :=
  { branch := r.branch, moveType := r.moveType, month := r.month, day := r.day }

/-- The grouping key of a `historical_df` row. -/
def histKeyOf (r : HistRec) : HistKey :=
  { branch := r.branch, month := r.month, day := r.day }

/-- `move_grouped`: one row per observed (Branch, MoveType, Month, Day) key,
carrying the summed Count of that group. -/
def moveGrouped (df : List MoveRec) : List (MoveKey × Rat) :=
  ((df.map moveKeyOf).dedup).map (fun k =>
    (k, ((df.filter (fun r => moveKeyOf r == k)).map (fun r => r.count)).sum))

/-- `historical_grouped`: one row per observed (Branch, Month, Day) key,
carrying the summed Count of that group. -/
def historicalGrouped (df : List HistRec) : List (HistKey × Rat) :=
  ((df.map histKeyOf).dedup).map (fun k =>
    (k, ((df.filter (fun r => histKeyOf r == k)).map (fun r => r.count)).sum))

/-- Lexicographic comparison of strings by code point, the comparison used
by Python `sorted` on strings. -/
def charListLe : List Char → List Char → Bool
  | [], _ => true
  | _ :: _, [] => false
  | c :: cs, d :: ds =>
    if c.toNat < d.toNat then true
    else if d.toNat < c.toNat then false
    else charListLe cs ds

/-- Insertion of a string into a sorted list (ascending, lexicographic). -/
def insertStr (x : String) : List String → List String
  | [] => [x]
  | y :: ys => if charListLe x.data y.data then x :: y :: ys else y :: insertStr x ys

/-- `sorted(..)` on a list of strings, via insertion sort. -/
def sortStr (l : List String) : List String :=
  l.foldr insertStr []

/-- `sorted(move_df.Branch.unique())`. -/
def aggBranches (src : SourceData) : List String :=
  sortStr ((src.moveDf.map (fun r => r.branch)).dedup)

/-- `sorted(move_df.MoveType.unique())`. -/
def aggMoveTypes (src : SourceData) : List String :=
  sortStr ((src.moveDf.map (fun r => r.moveType)).dedup)

/-- A combination of the nested enumeration loop, which is also the shape of
a persisted checkpoint (`{branch, move_type, month, day}`). -/
structure AggKey where
  branch : String
  moveType : String
  month : Nat
  day : Nat
deriving DecidableEq

/-- The deterministic enumeration order of the main loop: branches sorted,
move types sorted, month 1–12, day 1–31. -/
def aggKeys (src : SourceData) : List AggKey :=
  (aggBranches src).flatMap (fun b =>
    (aggMoveTypes src).flatMap (fun mt =>
      (List.range 12).flatMap (fun m =>
        (List.range 31).map (fun d =>
          { branch := b, moveType := mt, month := m + 1, day := d + 1 }))))

/-- The `move_count` selection of the main loop: the summed Count of the
`move_grouped` rows matching the combination (0 when no group matches,
exactly as a pandas selection followed by `.sum()`). -/
def moveCountOf (mg : List (MoveKey × Rat)) (k : AggKey) : Rat :=
  ((mg.filter (fun g =>
      g.1.branch == k.branch && g.1.moveType == k.moveType &&
      g.1.month == k.month && g.1.day == k.day)).map (fun g => g.2)).sum

/-- The `total_count` selection of the main loop: the summed Count of the
`historical_grouped` rows matching (branch, month, day). -/
def totalCountOf (hg : List (HistKey × Rat)) (k : AggKey) : Rat :=
  ((hg.filter (fun g =>
      g.1.branch == k.branch && g.1.month == k.month && g.1.day == k.day)).map
    (fun g => g.2)).sum

/-- The per-combination computation of the main loop, over the pre-grouped
tables: skip (`none`) when the (month, day) pair is not a valid 2021 date
(`pd.to_datetime` with `errors="coerce"` on year 2021, a non-leap year) or
when the summed total count is zero; otherwise the percentage
`(move_count / total_count) * 100`. -/
def computeCombo (mg : List (MoveKey × Rat)) (hg : List (HistKey × Rat))
    (k : AggKey) : Option Rat :=
  if !isValidDate 2021 k.month k.day then none
  else
    let moveCount := moveCountOf mg k
    let totalCount := totalCountOf hg k
    if 0 < totalCount then some (moveCount / totalCount * 100) else none

/-- The persisted `historical_percentages` table viewed through its primary
key (branch, move_type, month, day): at most one row per key, so the table is
a map from keys to stored percentages. -/
def TableMap : Type := AggKey → Option Rat

/-- The empty table (freshly created by `CREATE TABLE`). -/
def emptyTable : TableMap := fun _ => none

/-- A single `INSERT .. ON CONFLICT (branch, move_type, month, day) DO UPDATE
SET avg_percentage = EXCLUDED.avg_percentage`: the row for the key is
replaced (or inserted), all other rows are untouched. -/
def upsert (t : TableMap) (k : AggKey) (v : Rat) : TableMap :=
  fun k2 => if k2 = k then some v else t k2

/-- `cursor.executemany` of a whole batch: row-by-row upserts. -/
def upsertAll (t : TableMap) (batch : List (AggKey × Rat)) : TableMap :=
  batch.foldl (fun t2 kv => upsert t2 kv.1 kv.2) t

/-- The mutable state of the main loop: the committed table, the in-memory
batch, and the last checkpoint written to `checkpoint.json` (`none` when no
checkpoint file exists). -/
structure AggState where
  table : TableMap
  batch : List (AggKey × Rat)
  checkpoint : Option AggKey

/-- `batch_size = 1000` of the source. -/
def batchSize : Nat := 1000

/-- Processing of one enumerated combination: append the computed percentage
to the batch (if any); when the batch reaches `batch_size`, upsert and commit
it and persist a checkpoint at `(branch, move_type, month, day + 1)` — note
the source saves `day + 1` even when `day` is 31. -/
def stepKey (mg : List (MoveKey × Rat)) (hg : List (HistKey × Rat))
    (st : AggState) (k : AggKey) : AggState :=
  match computeCombo mg hg k with
  | none => st
  | some v =>
    let batch := st.batch ++ [(k, v)]
    if batchSize ≤ batch.length then
      { table := upsertAll st.table batch
        batch := []
        checkpoint := some { branch := k.branch, moveType := k.moveType,
                             month := k.month, day := k.day + 1 } }
    else
      { table := st.table, batch := batch, checkpoint := st.checkpoint }

/-- The main loop over a list of enumerated combinations, from a loop state;
the grouped tables are computed once, before the loop, as in the source. -/
def runLoop (mg : List (MoveKey × Rat)) (hg : List (HistKey × Rat))
    (keys : List AggKey) (st : AggState) : AggState :=
  keys.foldl (stepKey mg hg) st

/-- The combinations actually processed given a loaded checkpoint: with no
checkpoint file, all of them; with a checkpoint, the loop keeps `skip_until`
set until it meets the checkpoint combination and `continue`s on that very
iteration as well, so the processed combinations are those strictly after the
first occurrence of the checkpoint — and none at all when the checkpoint
matches no combination (as happens for a saved `day` of 32). -/
def processedKeys (src : SourceData) (cp : Option AggKey) : List AggKey :=
  match cp with
  | none => aggKeys src
  | some c => ((aggKeys src).dropWhile (fun k => !(k == c))).drop 1

/-- A full aggregator run from a starting table and a loaded checkpoint:
pre-group, fold the main loop over the processed combinations, then upsert
the remaining partial batch (the final `if batch:` block). -/
def runAgg (src : SourceData) (cp : Option AggKey) (init : TableMap) : TableMap :=
  let mg := moveGrouped src.moveDf
  let hg := historicalGrouped src.historicalDf
  let final := runLoop mg hg (processedKeys src cp)
    { table := init, batch := [], checkpoint := cp }
  upsertAll final.table final.batch

/-- A fresh, uninterrupted run over an initial table (no checkpoint file). -/
def freshRun (src : SourceData) (init : TableMap) : TableMap :=
  runAgg src none init

/-- The loop state after processing the first `n` enumerated combinations of
a fresh run; an interruption at that point loses the in-memory batch and
leaves the committed table and the checkpoint file behind. -/
def interruptedState (src : SourceData) (n : Nat) : AggState :=
  runLoop (moveGrouped src.moveDf) (historicalGrouped src.historicalDf)
    ((aggKeys src).take n)
    { table := emptyTable, batch := [], checkpoint := none }

/-! ## The batched loop versus a simple per-key upsert -/

/-- One per-key upsert: the effect of a single combination on the final
table, ignoring batching. -/
def simpleStep (mg : List (MoveKey × Rat)) (hg : List (HistKey × Rat))
    (t : TableMap) (k : AggKey) : TableMap :=
  match computeCombo mg hg k with
  | some v => upsert t k v
  | none => t

/-- Per-key upserts folded over a list of combinations. -/
def simpleRun (mg : List (MoveKey × Rat)) (hg : List (HistKey × Rat))
    (init : TableMap) (keys : List AggKey) : TableMap :=
  keys.foldl (simpleStep mg hg) init

/-- The table a loop state denotes once its pending batch is drained. -/
def pendingTable (st : AggState) : TableMap :=
  upsertAll st.table st.batch

theorem upsertAll_concat (t : TableMap) (b : List (AggKey × Rat)) (kv : AggKey × Rat) :
    upsertAll t (b ++ [kv]) = upsert (upsertAll t b) kv.1 kv.2 := by
  simp [upsertAll, List.foldl_concat]

theorem pending_stepKey (mg : List (MoveKey × Rat)) (hg : List (HistKey × Rat))
    (st : AggState) (k : AggKey) :
    pendingTable (stepKey mg hg st k) = simpleStep mg hg (pendingTable st) k := by
  unfold stepKey simpleStep
  cases h : computeCombo mg hg k with
  | none => rfl
  | some v =>
    simp only
    split
    · show upsertAll (upsertAll st.table (st.batch ++ [(k, v)])) [] = _
      show upsertAll st.table (st.batch ++ [(k, v)]) = _
      rw [upsertAll_concat]
      rfl
    · show upsertAll st.table (st.batch ++ [(k, v)]) = _
      rw [upsertAll_concat]
      rfl

theorem pending_runLoop (mg : List (MoveKey × Rat)) (hg : List (HistKey × Rat)) :
    ∀ (keys : List AggKey) (st : AggState),
      pendingTable (runLoop mg hg keys st) = simpleRun mg hg (pendingTable st) keys := by
  intro keys
  induction keys with
  | nil => intro st; rfl
  | cons k ks ih =>
    intro st
    show pendingTable (runLoop mg hg ks (stepKey mg hg st k)) = _
    rw [ih, pending_stepKey]
    rfl

theorem runAgg_eq_simpleRun (src : SourceData) (cp : Option AggKey) (init : TableMap) :
    runAgg src cp init =
      simpleRun (moveGrouped src.moveDf) (historicalGrouped src.historicalDf)
        init (processedKeys src cp) := by
  show pendingTable (runLoop _ _ _ _) = _
  rw [pending_runLoop]
  rfl

theorem option_or_self_or (a b : Option Rat) : a.or (a.or b) = a.or b := by
  cases a <;> rfl

theorem simpleStep_apply (mg : List (MoveKey × Rat)) (hg : List (HistKey × Rat))
    (init : TableMap) (k k0 : AggKey) :
    simpleStep mg hg init k k0 =
      if k0 = k then (computeCombo mg hg k).or (init k0) else init k0 := by
  unfold simpleStep
  cases computeCombo mg hg k with
  | none => simp [Option.or]
  | some v =>
    show upsert init k v k0 = _
    unfold upsert
    by_cases h : k0 = k <;> simp [h, Option.or]

theorem simpleRun_apply (mg : List (MoveKey × Rat)) (hg : List (HistKey × Rat)) :
    ∀ (keys : List AggKey) (init : TableMap) (k0 : AggKey),
      simpleRun mg hg init keys k0 =
        (if k0 ∈ keys then computeCombo mg hg k0 else none).or (init k0) := by
  intro keys
  induction keys with
  | nil => intro init k0; simp [simpleRun, Option.or]
  | cons k ks ih =>
    intro init k0
    show simpleRun mg hg (simpleStep mg hg init k) ks k0 = _
    rw [ih, simpleStep_apply]
    by_cases hmem : k0 ∈ ks
    · by_cases hk : k0 = k
      · subst hk
        simp [hmem, option_or_self_or]
      · simp [hmem, hk]
    · by_cases hk : k0 = k
      · subst hk
        simp [hmem, Option.or]
      · simp [hmem, hk, List.mem_cons, Option.or]

theorem runAgg_apply (src : SourceData) (cp : Option AggKey) (init : TableMap)
    (k0 : AggKey) :
    runAgg src cp init k0 =
      (if k0 ∈ processedKeys src cp then
          computeCombo (moveGrouped src.moveDf) (historicalGrouped src.historicalDf) k0
        else none).or (init k0) := by
  rw [runAgg_eq_simpleRun, simpleRun_apply]

/-! ## The enumeration order has no duplicate combinations -/

theorem insertStr_perm (x : String) :
    ∀ l : List String, (insertStr x l).Perm (x :: l) := by
  intro l
  induction l with
  | nil => exact List.Perm.refl _
  | cons y ys ih =>
    unfold insertStr
    split
    · exact List.Perm.refl _
    · exact (ih.cons y).trans (List.Perm.swap x y ys)

theorem sortStr_perm : ∀ l : List String, (sortStr l).Perm l := by
  intro l
  induction l with
  | nil => exact List.Perm.refl _
  | cons y ys ih =>
    show (insertStr y (sortStr ys)).Perm (y :: ys)
    exact (insertStr_perm y (sortStr ys)).trans (ih.cons y)

theorem aggBranches_nodup (src : SourceData) : (aggBranches src).Nodup :=
  ((sortStr_perm _).nodup_iff).mpr (List.nodup_dedup _)

theorem aggMoveTypes_nodup (src : SourceData) : (aggMoveTypes src).Nodup :=
  ((sortStr_perm _).nodup_iff).mpr (List.nodup_dedup _)

theorem monthDayBlock_nodup (b mt : String) :
    ((List.range 12).flatMap (fun m =>
      (List.range 31).map (fun d => AggKey.mk b mt (m + 1) (d + 1)))).Nodup := by
  rw [List.nodup_flatMap]
  constructor
  · intro m _
    refine List.Nodup.map ?_ (List.nodup_range 31)
    intro d1 d2 h
    simpa [AggKey.mk.injEq] using h
  · refine (List.nodup_range 12).imp ?_
    intro m1 m2 hne k hk1 hk2
    simp only [List.mem_map, List.mem_range] at hk1 hk2
    obtain ⟨d1, _, rfl⟩ := hk1
    obtain ⟨d2, _, hk⟩ := hk2
    have hm := congrArg AggKey.month hk
    simp only [AggKey.mk.injEq, Nat.add_right_cancel_iff] at hm
    exact hne hm.symm

theorem mem_monthDayBlock {b mt : String} {k : AggKey}
    (h : k ∈ (List.range 12).flatMap (fun m =>
      (List.range 31).map (fun d => AggKey.mk b mt (m + 1) (d + 1)))) :
    k.branch = b ∧ k.moveType = mt := by
  simp only [List.mem_flatMap, List.mem_map, List.mem_range] at h
  obtain ⟨m, _, d, _, rfl⟩ := h
  exact ⟨rfl, rfl⟩

theorem moveTypeBlock_nodup (mts : List String) (hmts : mts.Nodup) (b : String) :
    (mts.flatMap (fun mt =>
      (List.range 12).flatMap (fun m =>
        (List.range 31).map (fun d => AggKey.mk b mt (m + 1) (d + 1))))).Nodup := by
  rw [List.nodup_flatMap]
  constructor
  · intro mt _
    exact monthDayBlock_nodup b mt
  · refine hmts.imp ?_
    intro mt1 mt2 hne k hk1 hk2
    exact hne ((mem_monthDayBlock hk1).2.symm.trans (mem_monthDayBlock hk2).2)

theorem mem_moveTypeBlock {mts : List String} {b : String} {k : AggKey}
    (h : k ∈ mts.flatMap (fun mt =>
      (List.range 12).flatMap (fun m =>
        (List.range 31).map (fun d => AggKey.mk b mt (m + 1) (d + 1))))) :
    k.branch = b := by
  simp only [List.mem_flatMap, List.mem_map, List.mem_range] at h
  obtain ⟨mt, _, m, _, d, _, rfl⟩ := h
  rfl

theorem aggKeys_nodup (src : SourceData) : (aggKeys src).Nodup := by
  rw [aggKeys, List.nodup_flatMap]
  constructor
  · intro b _
    exact moveTypeBlock_nodup (aggMoveTypes src) (aggMoveTypes_nodup src) b
  · refine (aggBranches_nodup src).imp ?_
    intro b1 b2 hne k hk1 hk2
    exact hne ((mem_moveTypeBlock hk1).symm.trans (mem_moveTypeBlock hk2))

theorem not_mem_dropWhile_drop {α : Type} [DecidableEq α] :
    ∀ (l : List α) (c : α), l.Nodup → c ∉ (l.dropWhile (fun k => !(k == c))).drop 1 := by
  intro l
  induction l with
  | nil => intro c _; simp
  | cons x xs ih =>
    intro c h
    rw [List.dropWhile_cons]
    by_cases hx : x = c
    · subst hx
      simp only [beq_self_eq_true, Bool.not_true, Bool.false_eq_true, if_false,
        List.drop_one, List.tail_cons]
      exact fun hc => (List.nodup_cons.mp h).1 hc
    · have : (!(x == c)) = true := by simp [hx]
      rw [if_pos this]
      exact ih c (List.nodup_cons.mp h).2

theorem checkpoint_not_processed (src : SourceData) (cp : AggKey) :
    cp ∉ processedKeys src (some cp) :=
  not_mem_dropWhile_drop (aggKeys src) cp (aggKeys_nodup src)

/-! ## Grouped sums equal raw record sums -/

/-- The summed category count straight from the raw records, as the spec
phrases it: the summed Count over the aggregation window for the exact
(branch, category, month, day). -/
def rawCategoryCount (df : List MoveRec) (k : AggKey) : Rat :=
  ((df.filter (fun r =>
      r.branch == k.branch && r.moveType == k.moveType &&
      r.month == k.month && r.day == k.day)).map (fun r => r.count)).sum

/-- The summed total count straight from the raw records for the exact
(branch, month, day). -/
def rawTotalCount (df : List HistRec) (k : AggKey) : Rat :=
  ((df.filter (fun r =>
      r.branch == k.branch && r.month == k.month && r.day == k.day)).map
    (fun r => r.count)).sum

theorem nodup_filter_beq {α : Type} [DecidableEq α] :
    ∀ (l : List α), l.Nodup → ∀ a : α,
      l.filter (fun x => x == a) = if a ∈ l then [a] else [] := by
  intro l
  induction l with
  | nil => intro _ a; simp
  | cons x xs ih =>
    intro h a
    rw [List.filter_cons]
    by_cases hx : x = a
    · subst hx
      have hnx : x ∉ xs := (List.nodup_cons.mp h).1
      rw [ih (List.nodup_cons.mp h).2 x]
      simp [hnx]
    · have : (x == a) = false := by simp [hx]
      rw [this]
      rw [ih (List.nodup_cons.mp h).2 a]
      have hax : ¬ a = x := fun he => hx he.symm
      simp [List.mem_cons, hax]

theorem filter_moveKey_nil (df : List MoveRec) (K : MoveKey)
    (h : K ∉ df.map moveKeyOf) :
    df.filter (fun r => moveKeyOf r == K) = [] := by
  rw [List.filter_eq_nil_iff]
  intro r hr hpr
  exact h (by
    rw [beq_iff_eq] at hpr
    exact hpr ▸ List.mem_map_of_mem moveKeyOf hr)

theorem moveCountOf_grouped (df : List MoveRec) (k : AggKey) :
    moveCountOf (moveGrouped df) k = rawCategoryCount df k := by
  have hfields : ∀ r : MoveRec,
      (r.branch == k.branch && r.moveType == k.moveType &&
        r.month == k.month && r.day == k.day) =
      (moveKeyOf r == MoveKey.mk k.branch k.moveType k.month k.day) := by
    intro r
    rw [Bool.eq_iff_iff]
    simp [moveKeyOf, beq_iff_eq, MoveKey.mk.injEq, and_assoc]
  have hpair : ∀ g : MoveKey × Rat,
      (g.1.branch == k.branch && g.1.moveType == k.moveType &&
        g.1.month == k.month && g.1.day == k.day) =
      (g.1 == MoveKey.mk k.branch k.moveType k.month k.day) := by
    intro g
    obtain ⟨⟨b1, mt1, m1, d1⟩, v⟩ := g
    rw [Bool.eq_iff_iff]
    simp [beq_iff_eq, MoveKey.mk.injEq, and_assoc]
  unfold moveCountOf moveGrouped rawCategoryCount
  rw [List.filter_congr (fun g _ => hpair g)]
  rw [List.filter_congr (fun r _ => hfields r)]
  rw [List.filter_map]
  have hcomp : ((df.map moveKeyOf).dedup.filter
      ((fun g : MoveKey × Rat => g.1 == MoveKey.mk k.branch k.moveType k.month k.day) ∘
        (fun k2 => (k2, ((df.filter (fun r => moveKeyOf r == k2)).map (fun r => r.count)).sum)))) =
      ((df.map moveKeyOf).dedup.filter
        (fun k2 => k2 == MoveKey.mk k.branch k.moveType k.month k.day)) := by
    exact List.filter_congr (fun k2 _ => rfl)
  rw [hcomp]
  rw [nodup_filter_beq _ (List.nodup_dedup _) _]
  by_cases hK : MoveKey.mk k.branch k.moveType k.month k.day ∈ (df.map moveKeyOf).dedup
  · rw [if_pos hK]
    simp [add_zero]
  · rw [if_neg hK]
    rw [filter_moveKey_nil df _ (fun hc => hK (List.mem_dedup.mpr hc))]
    rfl

theorem filter_histKey_nil (df : List HistRec) (K : HistKey)
    (h : K ∉ df.map histKeyOf) :
    df.filter (fun r => histKeyOf r == K) = [] := by
  rw [List.filter_eq_nil_iff]
  intro r hr hpr
  exact h (by
    rw [beq_iff_eq] at hpr
    exact hpr ▸ List.mem_map_of_mem histKeyOf hr)

theorem totalCountOf_grouped (df : List HistRec) (k : AggKey) :
    totalCountOf (historicalGrouped df) k = rawTotalCount df k := by
  have hfields : ∀ r : HistRec,
      (r.branch == k.branch && r.month == k.month && r.day == k.day) =
      (histKeyOf r == HistKey.mk k.branch k.month k.day) := by
    intro r
    rw [Bool.eq_iff_iff]
    simp [histKeyOf, beq_iff_eq, HistKey.mk.injEq, and_assoc]
  have hpair : ∀ g : HistKey × Rat,
      (g.1.branch == k.branch && g.1.month == k.month && g.1.day == k.day) =
      (g.1 == HistKey.mk k.branch k.month k.day) := by
    intro g
    obtain ⟨⟨b1, m1, d1⟩, v⟩ := g
    rw [Bool.eq_iff_iff]
    simp [beq_iff_eq, HistKey.mk.injEq, and_assoc]
  unfold totalCountOf historicalGrouped rawTotalCount
  rw [List.filter_congr (fun g _ => hpair g)]
  rw [List.filter_congr (fun r _ => hfields r)]
  rw [List.filter_map]
  have hcomp : ((df.map histKeyOf).dedup.filter
      ((fun g : HistKey × Rat => g.1 == HistKey.mk k.branch k.month k.day) ∘
        (fun k2 => (k2, ((df.filter (fun r => histKeyOf r == k2)).map (fun r => r.count)).sum)))) =
      ((df.map histKeyOf).dedup.filter
        (fun k2 => k2 == HistKey.mk k.branch k.month k.day)) := by
    exact List.filter_congr (fun k2 _ => rfl)
  rw [hcomp]
  rw [nodup_filter_beq _ (List.nodup_dedup _) _]
  by_cases hK : HistKey.mk k.branch k.month k.day ∈ (df.map histKeyOf).dedup
  · rw [if_pos hK]
    simp [add_zero]
  · rw [if_neg hK]
    rw [filter_histKey_nil df _ (fun hc => hK (List.mem_dedup.mpr hc))]
    rfl

theorem computeCombo_valid (src : SourceData) (k : AggKey)
    (hv : isValidDate 2021 k.month k.day = true) :
    computeCombo (moveGrouped src.moveDf) (historicalGrouped src.historicalDf) k =
      if 0 < rawTotalCount src.historicalDf k then
        some (rawCategoryCount src.moveDf k / rawTotalCount src.historicalDf k * 100)
      else none := by
  unfold computeCombo
  rw [hv]
  rw [moveCountOf_grouped, totalCountOf_grouped]
  rfl

theorem computeCombo_invalid (mg : List (MoveKey × Rat)) (hg : List (HistKey × Rat))
    (k : AggKey) (hv : isValidDate 2021 k.month k.day = false) :
    computeCombo mg hg k = none := by
  unfold computeCombo
  rw [hv]
  rfl

/-! ## Aggregator claims -/

/-- C2: for every combination processed by the aggregator over valid data:
when the summed total count over the aggregation window is positive, the
persisted percentage is exactly `100 * category_count / total_count`
(the category count being 0 when no matching record exists, since the sum of
an empty selection is 0); when the total count is 0, no row is written for
the key. -/
theorem aggregator_percentage_exact (src : SourceData) (k : AggKey)
    (hmem : k ∈ aggKeys src) (hv : isValidDate 2021 k.month k.day = true) :
    (0 < rawTotalCount src.historicalDf k →
      freshRun src emptyTable k =
        some (100 * rawCategoryCount src.moveDf k / rawTotalCount src.historicalDf k)) ∧
    (rawTotalCount src.historicalDf k = 0 → freshRun src emptyTable k = none) := by
  have happ := runAgg_apply src none emptyTable k
  have hproc : processedKeys src none = aggKeys src := rfl
  rw [hproc, if_pos hmem, computeCombo_valid src k hv] at happ
  constructor
  · intro hpos
    rw [if_pos hpos] at happ
    show runAgg src none emptyTable k = _
    rw [happ]
    show some _ = some _
    congr 1
    rw [div_mul_eq_mul_div, mul_comm]
  · intro h0
    have hneg : ¬ 0 < rawTotalCount src.historicalDf k := by rw [h0]; exact lt_irrefl 0
    rw [if_neg hneg] at happ
    exact happ

/-- A small concrete data set for witnesses: one category record of count 3
on January 2 and two total records of count 6 each on the same day. -/
def srcW2 : SourceData :=
  { moveDf := [{ branch := "A", moveType := "L", month := 1, day := 2, count := 3 }]
    historicalDf := [{ branch := "A", month := 1, day := 2, count := 6 },
                     { branch := "A", month := 1, day := 2, count := 6 }] }

theorem aggregator_percentage_exact_witness :
    freshRun srcW2 emptyTable { branch := "A", moveType := "L", month := 1, day := 2 } =
      some (100 * rawCategoryCount srcW2.moveDf
            { branch := "A", moveType := "L", month := 1, day := 2 } /
          rawTotalCount srcW2.historicalDf
            { branch := "A", moveType := "L", month := 1, day := 2 }) ∧
    (100 * rawCategoryCount srcW2.moveDf
        { branch := "A", moveType := "L", month := 1, day := 2 } /
      rawTotalCount srcW2.historicalDf
        { branch := "A", moveType := "L", month := 1, day := 2 } : Rat) = 25 :=
  ⟨(aggregator_percentage_exact srcW2 _ (by decide) (by decide)).1 (by decide), by decide⟩

/-- C7: a second aggregator run over the same source data leaves the table
unchanged: every enumerated key is recomputed to the same value and the
`ON CONFLICT DO UPDATE` upsert replaces rather than duplicates (the table,
being keyed by its primary key, is a map, so one row per key is structural). -/
theorem aggregator_idempotent (src : SourceData) (init : TableMap) :
    freshRun src (freshRun src init) = freshRun src init := by
  funext k
  show runAgg src none (runAgg src none init) k = runAgg src none init k
  rw [runAgg_apply src none (runAgg src none init) k,
    runAgg_apply src none init k]
  exact option_or_self_or _ _

/-- C8: an aggregator run never writes a row whose (month, day) is not a
valid calendar date of the non-leap reference year 2021: at such a key the
final table is whatever the starting table held, so a table built by
aggregator runs from an empty table has no such row. -/
theorem invalid_days_never_written (src : SourceData) (cp : Option AggKey)
    (init : TableMap) (k : AggKey)
    (hinv : isValidDate 2021 k.month k.day = false) :
    runAgg src cp init k = init k := by
  rw [runAgg_apply]
  rw [computeCombo_invalid _ _ k hinv]
  rw [ite_self]
  rfl

/-- A source with a single branch and single move type for small witnesses. -/
def srcW5 : SourceData :=
  { moveDf := [{ branch := "A", moveType := "L", month := 1, day := 1, count := 5 }]
    historicalDf := [{ branch := "A", month := 1, day := 1, count := 10 }] }

theorem invalid_days_never_written_witness :
    isValidDate 2021 2 30 = false ∧
    runAgg srcW5 none emptyTable { branch := "A", moveType := "L", month := 2, day := 30 } = none :=
  ⟨by decide,
    invalid_days_never_written srcW5 none emptyTable
      { branch := "A", moveType := "L", month := 2, day := 30 } (by decide)⟩

/-- C5: the resume logic never reprocesses the persisted checkpoint
combination itself.  The loop keeps skipping until it meets the checkpoint
combination and `continue`s on that iteration too, so a run resumed from
checkpoint `cp` leaves the table row of `cp` exactly as the interrupted run
left it — while a fresh run recomputes it (second and third conjuncts: on a
one-branch one-category source, a fresh run writes 50 for the checkpoint
combination, a resumed run starting from an empty committed table writes
nothing there).  Since the source persists the checkpoint as `day + 1` of
the last committed combination — a combination that was never processed —
resuming loses that combination (and, when `day + 1` is 32, matches no
combination at all and recomputes nothing). -/
theorem resumed_run_skips_checkpoint_combination :
    (∀ (src : SourceData) (cp : AggKey) (init : TableMap),
        runAgg src (some cp) init cp = init cp) ∧
    freshRun srcW5 emptyTable { branch := "A", moveType := "L", month := 1, day := 1 } =
      some 50 ∧
    runAgg srcW5 (some { branch := "A", moveType := "L", month := 1, day := 1 })
      emptyTable { branch := "A", moveType := "L", month := 1, day := 1 } = none := by
  refine ⟨?_, ?_, ?_⟩
  · intro src cp init
    rw [runAgg_apply, if_neg (checkpoint_not_processed src cp)]
    rfl
  · decide
  · decide

/-! ## Blender lemmas -/

theorem pyRound_intCast (n : Int) : pyRound ((n : Rat)) = n := by
  unfold pyRound
  rw [Int.floor_intCast]
  norm_num

theorem blendDay_date (table : PTable) (model : Predictor) (p : Rat)
    (b : String) (mt : Option String) :
    ∀ l : List Int,
      ((l.map (blendDay table model p b mt)).map (fun x => x.date)) = l := by
  intro l
  induction l with
  | nil => rfl
  | cons d ds ih =>
    simp only [List.map_cons]
    rw [ih]
    rfl

theorem forecastMove_ok (table : PTable) (models : ModelCache) (today : Nat)
    (inp : ForecastInput) (dt : Date) (model : Predictor)
    (h1 : parseDate inp.date = some dt)
    (h2 : ¬ horizonDN < toDayNumber dt)
    (h3 : ((table.map (fun r => r.branch)).contains inp.branch) = true)
    (h4 : moveTypeInvalid table inp.moveType = false)
    (h5 : models.lookup inp.branch = some model) :
    forecastMove table models today inp =
      .ok (forecastCore table model today dt inp.branch inp.moveType) := by
  unfold forecastMove
  rw [h1]
  simp only [h2, if_false, h3, Bool.not_true, Bool.false_eq_true, h4, h5]

/-! ## Blender claims -/

/-- C4: for every valid request, the reported window is `[today, today+14]`
when the requested date is at most 7 days after today (inclusive), otherwise
`[requested-7, requested+7]`; the window end is clamped to the hard horizon;
and the emitted per-day list consists of the window days with days strictly
before today dropped. -/
theorem forecast_window_rule (table : PTable) (models : ModelCache) (today : Nat)
    (inp : ForecastInput) (dt : Date) (model : Predictor) (r : ForecastResult)
    (h1 : parseDate inp.date = some dt)
    (h2 : ¬ horizonDN < toDayNumber dt)
    (h3 : ((table.map (fun r => r.branch)).contains inp.branch) = true)
    (h4 : moveTypeInvalid table inp.moveType = false)
    (h5 : models.lookup inp.branch = some model)
    (hr : forecastMove table models today inp = .ok r) :
    r.windowStart =
      (if (toDayNumber dt : Int) - today ≤ 7 then (today : Int)
        else (toDayNumber dt : Int) - 7) ∧
    r.windowEnd =
      (if (horizonDN : Int) <
          (if (toDayNumber dt : Int) - today ≤ 7 then (today : Int) + 14
            else (toDayNumber dt : Int) + 7)
        then (horizonDN : Int)
        else if (toDayNumber dt : Int) - today ≤ 7 then (today : Int) + 14
          else (toDayNumber dt : Int) + 7) ∧
    r.predictedSummary.map (fun x => x.date) =
      (dateRange r.windowStart r.windowEnd).filter (fun d => (today : Int) ≤ d) := by
  rw [forecastMove_ok table models today inp dt model h1 h2 h3 h4 h5] at hr
  injection hr with hr
  subst hr
  refine ⟨rfl, rfl, ?_⟩
  exact blendDay_date _ _ _ _ _ _

/-- Concrete data for blender witnesses and counterexamples. -/
def tblC1 : PTable :=
  [{ branch := "A", moveType := "L", month := 6, day := 15, avgPercentage := 40 },
   { branch := "A", moveType := "L", month := 6, day := 16, avgPercentage := 80 }]

/-- A model cache holding a constant predictor for branch A. -/
def modelsC1 : ModelCache := [("A", fun _ => 10)]

/-- 2025-06-08 as a day number. -/
def todayW4 : Nat := toDayNumber { year := 2025, month := 6, day := 8 }

theorem forecast_window_rule_witness :
    (forecastCore tblC1 (fun _ => 10) todayW4 { year := 2025, month := 6, day := 15 }
        "A" (some "L")).windowStart =
      (if (toDayNumber { year := 2025, month := 6, day := 15 } : Int) - todayW4 ≤ 7
        then (todayW4 : Int) else (toDayNumber { year := 2025, month := 6, day := 15 } : Int) - 7) ∧
    (forecastCore tblC1 (fun _ => 10) todayW4 { year := 2025, month := 6, day := 15 }
        "A" (some "L")).windowEnd =
      (if (horizonDN : Int) <
          (if (toDayNumber { year := 2025, month := 6, day := 15 } : Int) - todayW4 ≤ 7
            then (todayW4 : Int) + 14
            else (toDayNumber { year := 2025, month := 6, day := 15 } : Int) + 7)
        then (horizonDN : Int)
        else if (toDayNumber { year := 2025, month := 6, day := 15 } : Int) - todayW4 ≤ 7
          then (todayW4 : Int) + 14
          else (toDayNumber { year := 2025, month := 6, day := 15 } : Int) + 7) ∧
    (forecastCore tblC1 (fun _ => 10) todayW4 { year := 2025, month := 6, day := 15 }
        "A" (some "L")).predictedSummary.map (fun x => x.date) =
      (dateRange
        (forecastCore tblC1 (fun _ => 10) todayW4 { year := 2025, month := 6, day := 15 }
          "A" (some "L")).windowStart
        (forecastCore tblC1 (fun _ => 10) todayW4 { year := 2025, month := 6, day := 15 }
          "A" (some "L")).windowEnd).filter (fun d => (todayW4 : Int) ≤ d) :=
  forecast_window_rule tblC1 modelsC1 todayW4
    { date := "2025-06-15", branch := "A", moveType := some "L" }
    { year := 2025, month := 6, day := 15 } (fun _ => 10) _
    (by decide) (by decide) (by decide) (by decide) rfl rfl

/-- C1 (amended): the blended forecast of every emitted day equals
`round(raw_forecast_count * P / 100)` where `P` is the seasonal percentage of
the REQUESTED date (month, day) — one constant percentage for the whole
window, not the percentage of each day — and with no category requested the
blended forecast equals the raw forecast. -/
theorem blended_forecast_request_percentage (table : PTable) (models : ModelCache)
    (today : Nat) (inp : ForecastInput) (dt : Date) (model : Predictor)
    (r : ForecastResult)
    (h1 : parseDate inp.date = some dt)
    (h2 : ¬ horizonDN < toDayNumber dt)
    (h3 : ((table.map (fun r => r.branch)).contains inp.branch) = true)
    (h4 : moveTypeInvalid table inp.moveType = false)
    (h5 : models.lookup inp.branch = some model)
    (hr : forecastMove table models today inp = .ok r) :
    ∀ x ∈ r.predictedSummary,
      x.predictedMoves =
        pyRound (requestPercentage table inp.branch inp.moveType dt / 100 *
          rawCount model x.date.toNat) ∧
      (inp.moveType = none → x.predictedMoves = rawCount model x.date.toNat) := by
  rw [forecastMove_ok table models today inp dt model h1 h2 h3 h4 h5] at hr
  injection hr with hr
  subst hr
  intro x hx
  rw [show (forecastCore table model today dt inp.branch inp.moveType).predictedSummary =
      (emittedDates today (toDayNumber dt)).map
        (blendDay table model (requestPercentage table inp.branch inp.moveType dt)
          inp.branch inp.moveType) from rfl] at hx
  rw [List.mem_map] at hx
  obtain ⟨d, hd, rfl⟩ := hx
  refine ⟨rfl, ?_⟩
  intro hmt
  show pyRound (requestPercentage table inp.branch inp.moveType dt / 100 *
      rawCount model d.toNat) = rawCount model d.toNat
  rw [hmt]
  show pyRound ((100 : Rat) / 100 * rawCount model d.toNat) = rawCount model d.toNat
  rw [show ((100 : Rat) / 100 * rawCount model d.toNat) =
      ((rawCount model d.toNat : Int) : Rat) by norm_num]
  exact pyRound_intCast _

/-- 2025-06-15 as a day number. -/
def todayC1 : Nat := toDayNumber { year := 2025, month := 6, day := 15 }

theorem blended_forecast_request_percentage_witness :
    (blendDay tblC1 (fun _ => 10)
        (requestPercentage tblC1 "A" (some "L") { year := 2025, month := 6, day := 15 })
        "A" (some "L") ((todayC1 : Int) + 1)).predictedMoves =
      pyRound (requestPercentage tblC1 "A" (some "L")
          { year := 2025, month := 6, day := 15 } / 100 *
        rawCount (fun _ => 10)
          (blendDay tblC1 (fun _ => 10)
            (requestPercentage tblC1 "A" (some "L") { year := 2025, month := 6, day := 15 })
            "A" (some "L") ((todayC1 : Int) + 1)).date.toNat) :=
  (blended_forecast_request_percentage tblC1 modelsC1 todayC1
    { date := "2025-06-15", branch := "A", moveType := some "L" }
    { year := 2025, month := 6, day := 15 } (fun _ => 10) _
    (by decide) (by decide) (by decide) (by decide) rfl rfl
    (blendDay tblC1 (fun _ => 10)
      (requestPercentage tblC1 "A" (some "L") { year := 2025, month := 6, day := 15 })
      "A" (some "L") ((todayC1 : Int) + 1))
    (by decide)).1

/-- C1 counterexample: with today = 2025-06-15, a request for 2025-06-15 with
category L, the stored exact-day percentages 40% for (6, 15) and 80% for
(6, 16), and a constant raw forecast of 10, the code blends EVERY day of the
window with the requested date percentage 40% and emits 4 for all 15 days —
in particular for 2025-06-16 (the second day of the window, day number
todayC1 + 1), although that day has its own percentage 80% and the claimed
per-day blend would be `round(10 * 80 / 100) = 8`. -/
theorem blended_forecast_claim_false :
    (forecastMove tblC1 modelsC1 todayC1
        { date := "2025-06-15", branch := "A", moveType := some "L" }).toOption.map
        (fun r => r.predictedSummary.map (fun x => x.predictedMoves)) =
      some [4, 4, 4, 4, 4, 4, 4, 4, 4, 4, 4, 4, 4, 4, 4] ∧
    (forecastMove tblC1 modelsC1 todayC1
        { date := "2025-06-15", branch := "A", moveType := some "L" }).toOption.map
        (fun r => r.predictedSummary.map (fun x => x.date)) =
      some ((List.range 15).map (fun i => (todayC1 : Int) + i)) ∧
    civilOfDay (todayC1 + 1) = { year := 2025, month := 6, day := 16 } ∧
    fetchHistoricalPercentages tblC1 "A" "L" 6 16 = 80 ∧
    rawCount (fun _ => 10) (todayC1 + 1) = 10 ∧
    pyRound (fetchHistoricalPercentages tblC1 "A" "L" 6 16 / 100 *
      rawCount (fun _ => 10) (todayC1 + 1)) = 8 := by
  refine ⟨by decide, by decide, by decide, by decide, by decide, by decide⟩

/-- The three-way classification of a signed percentage difference used by
the per-day (and summary) commentary of `forecast_move`: within 5 points is
the consistent phrase set, more than 5 above is the stronger set, and more
than 5 below is the weaker set. -/
def classifyDiff (diff : Rat) : CommentTier :=
  if |diff| ≤ 5 then CommentTier.consistent
  else if 5 < diff then CommentTier.stronger
  else CommentTier.weaker

/-- C6 (amended): for every emitted day with a requested category, the
comment tier classifies `implied_percentage - hist_avg` where
`implied_percentage = 100 * blended / raw` (0 when raw is 0) and `hist_avg`
is the three-tier percentage lookup of that day (whose last resort is the
floor 1.0 — the `if hist_avg is None` fallback to the requested date
percentage in the source is dead code, because the lookup never returns
null). -/
theorem per_day_comment_tiers (table : PTable) (models : ModelCache)
    (today : Nat) (inp : ForecastInput) (dt : Date) (model : Predictor)
    (mt : String) (r : ForecastResult)
    (h1 : parseDate inp.date = some dt)
    (h2 : ¬ horizonDN < toDayNumber dt)
    (h3 : ((table.map (fun r => r.branch)).contains inp.branch) = true)
    (h4 : moveTypeInvalid table inp.moveType = false)
    (h5 : models.lookup inp.branch = some model)
    (hmt : inp.moveType = some mt)
    (hr : forecastMove table models today inp = .ok r) :
    ∀ x ∈ r.predictedSummary,
      x.comment =
        classifyDiff
          ((if 0 < rawCount model x.date.toNat then
              (x.predictedMoves : Rat) / rawCount model x.date.toNat * 100
            else 0) -
          fetchHistoricalPercentages table inp.branch mt
            (civilOfDay x.date.toNat).month (civilOfDay x.date.toNat).day) := by
  rw [forecastMove_ok table models today inp dt model h1 h2 h3 h4 h5] at hr
  injection hr with hr
  subst hr
  intro x hx
  rw [show (forecastCore table model today dt inp.branch inp.moveType).predictedSummary =
      (emittedDates today (toDayNumber dt)).map
        (blendDay table model (requestPercentage table inp.branch inp.moveType dt)
          inp.branch inp.moveType) from rfl] at hx
  rw [List.mem_map] at hx
  obtain ⟨d, hd, rfl⟩ := hx
  rw [hmt]
  rfl

theorem per_day_comment_tiers_witness :
    (blendDay tblC1 (fun _ => 10)
        (requestPercentage tblC1 "A" (some "L") { year := 2025, month := 6, day := 15 })
        "A" (some "L") ((todayC1 : Int) + 1)).comment =
      classifyDiff
        ((if 0 < rawCount (fun _ => 10)
              (blendDay tblC1 (fun _ => 10)
                (requestPercentage tblC1 "A" (some "L") { year := 2025, month := 6, day := 15 })
                "A" (some "L") ((todayC1 : Int) + 1)).date.toNat then
            ((blendDay tblC1 (fun _ => 10)
                (requestPercentage tblC1 "A" (some "L") { year := 2025, month := 6, day := 15 })
                "A" (some "L") ((todayC1 : Int) + 1)).predictedMoves : Rat) /
              rawCount (fun _ => 10)
                (blendDay tblC1 (fun _ => 10)
                  (requestPercentage tblC1 "A" (some "L") { year := 2025, month := 6, day := 15 })
                  "A" (some "L") ((todayC1 : Int) + 1)).date.toNat * 100
          else 0) -
        fetchHistoricalPercentages tblC1 "A" "L"
          (civilOfDay (blendDay tblC1 (fun _ => 10)
            (requestPercentage tblC1 "A" (some "L") { year := 2025, month := 6, day := 15 })
            "A" (some "L") ((todayC1 : Int) + 1)).date.toNat).month
          (civilOfDay (blendDay tblC1 (fun _ => 10)
            (requestPercentage tblC1 "A" (some "L") { year := 2025, month := 6, day := 15 })
            "A" (some "L") ((todayC1 : Int) + 1)).date.toNat).day) :=
  per_day_comment_tiers tblC1 modelsC1 todayC1
    { date := "2025-06-15", branch := "A", moveType := some "L" }
    { year := 2025, month := 6, day := 15 } (fun _ => 10) "L" _
    (by decide) (by decide) (by decide) (by decide) rfl rfl rfl
    (blendDay tblC1 (fun _ => 10)
      (requestPercentage tblC1 "A" (some "L") { year := 2025, month := 6, day := 15 })
      "A" (some "L") ((todayC1 : Int) + 1))
    (by decide)

/-- The table of the C6 counterexample: a single stored percentage, 40% for
(6, 28). -/
def tblC6 : PTable :=
  [{ branch := "A", moveType := "L", month := 6, day := 28, avgPercentage := 40 }]

/-- 2025-06-28 as a day number. -/
def todayC6 : Nat := toDayNumber { year := 2025, month := 6, day := 28 }

/-- C6 counterexample: today = requested date = 2025-06-28, category L, raw
forecast 10 everywhere, stored percentage 40% for (6, 28) only.  The window
runs to 2025-07-12; on every July day the lookup finds neither an exact day
nor a July row, so the comparison percentage is the floor 1.0 — NOT the
requested date value 40% that the claim names as the last resort.  The
implied percentage is 40 (blend 4 of raw 10), so the code classifies those
days as `stronger` (40 - 1 > 5), although under the claimed comparison the
difference would be 40 - 40 = 0 and the tier `consistent`.  The first three
days (June 28, 29, 30) fall back to the June monthly average 40 and come out
`consistent`; the fourth emitted day (index 3) is 2025-07-01. -/
theorem per_day_comment_claim_false :
    (forecastMove tblC6 modelsC1 todayC6
        { date := "2025-06-28", branch := "A", moveType := some "L" }).toOption.map
        (fun r => r.predictedSummary.map (fun x => x.comment)) =
      some [CommentTier.consistent, CommentTier.consistent, CommentTier.consistent,
        CommentTier.stronger, CommentTier.stronger, CommentTier.stronger,
        CommentTier.stronger, CommentTier.stronger, CommentTier.stronger,
        CommentTier.stronger, CommentTier.stronger, CommentTier.stronger,
        CommentTier.stronger, CommentTier.stronger, CommentTier.stronger] ∧
    (forecastMove tblC6 modelsC1 todayC6
        { date := "2025-06-28", branch := "A", moveType := some "L" }).toOption.map
        (fun r => r.predictedSummary.map (fun x => x.predictedMoves)) =
      some [4, 4, 4, 4, 4, 4, 4, 4, 4, 4, 4, 4, 4, 4, 4] ∧
    civilOfDay (todayC6 + 3) = { year := 2025, month := 7, day := 1 } ∧
    fetchHistoricalPercentages tblC6 "A" "L" 7 1 = 1 ∧
    requestPercentage tblC6 "A" (some "L") { year := 2025, month := 6, day := 28 } = 40 ∧
    classifyDiff (((4 : Rat) / 10 * 100) - 40) = CommentTier.consistent := by
  refine ⟨by decide, by decide, by decide, by decide, by decide, by decide⟩

/-- The primary-key projection of a `historical_percentages` row. -/
def prowKey (r : PRow) : String × String × Nat × Nat :=
  (r.branch, r.moveType, r.month, r.day)

/-- A well-formed `historical_percentages` extract: the primary key
(branch, move_type, month, day) admits at most one row per key. -/
def PTableWF (table : PTable) : Prop :=
  (table.map prowKey).Nodup

theorem find?_exact_row (b mt : String) (m d : Nat) :
    ∀ (table : PTable), PTableWF table →
      ∀ r ∈ table, r.branch = b → r.moveType = mt → r.month = m → r.day = d →
        table.find? (fun r2 =>
            r2.branch == b && r2.moveType == mt && r2.month == m && r2.day == d) =
          some r := by
  intro table
  induction table with
  | nil => intro _ r hr; exact absurd hr (List.not_mem_nil r)
  | cons x xs ih =>
    intro hwf r hr hb hm hmo hd
    have hkeys := hwf
    unfold PTableWF at hkeys
    rw [List.map_cons, List.nodup_cons] at hkeys
    rw [List.find?_cons]
    by_cases hpx : (x.branch == b && x.moveType == mt && x.month == m && x.day == d) = true
    · rw [hpx]
      rcases List.mem_cons.mp hr with hrx | hrxs
      · rw [hrx]
      · exfalso
        simp only [Bool.and_eq_true, beq_iff_eq] at hpx
        apply hkeys.1
        have : prowKey x = prowKey r := by
          unfold prowKey
          rw [hpx.1.1.1, hpx.1.1.2, hpx.1.2, hpx.2, hb, hm, hmo, hd]
        rw [this]
        exact List.mem_map_of_mem prowKey hrxs
    · rw [Bool.not_eq_true] at hpx
      rw [hpx]
      have hrxs : r ∈ xs := by
        rcases List.mem_cons.mp hr with hrx | hrxs
        · exfalso
          subst hrx
          rw [hb, hm, hmo, hd] at hpx
          simp at hpx
        · exact hrxs
      exact ih hkeys.2 r hrxs hb hm hmo hd

/-- C3: the percentage lookup is a three-tier fallback.  (a) With a stored
row for the exact key (unique by the primary key), the lookup returns its
percentage.  (b) With no exact-day row but at least one row for the same
(branch, move_type, month), it returns the mean of those rows (the SQL
`AVG`).  (c) With no row for the month at all, it returns the floor 1.0.
So the lookup always returns a usable number. -/
theorem percentage_lookup_three_tiers (table : PTable) (b mt : String) (m d : Nat)
    (hwf : PTableWF table) :
    (∀ r ∈ table, r.branch = b → r.moveType = mt → r.month = m → r.day = d →
        fetchHistoricalPercentages table b mt m d = r.avgPercentage) ∧
    ((∀ r ∈ table, ¬(r.branch = b ∧ r.moveType = mt ∧ r.month = m ∧ r.day = d)) →
      table.filter (fun r => r.branch == b && r.moveType == mt && r.month == m) ≠ [] →
        fetchHistoricalPercentages table b mt m d =
          ((table.filter (fun r =>
              r.branch == b && r.moveType == mt && r.month == m)).map
            (fun r => r.avgPercentage)).sum /
          (table.filter (fun r =>
            r.branch == b && r.moveType == mt && r.month == m)).length) ∧
    (table.filter (fun r => r.branch == b && r.moveType == mt && r.month == m) = [] →
      fetchHistoricalPercentages table b mt m d = 1) := by
  refine ⟨?_, ?_, ?_⟩
  · intro r hr hb hm hmo hd
    unfold fetchHistoricalPercentages
    rw [find?_exact_row b mt m d table hwf r hr hb hm hmo hd]
  · intro hnone hne
    have hfind : table.find? (fun r2 =>
        r2.branch == b && r2.moveType == mt && r2.month == m && r2.day == d) = none := by
      rw [List.find?_eq_none]
      intro r hr hp
      simp only [Bool.and_eq_true, beq_iff_eq] at hp
      exact hnone r hr ⟨hp.1.1.1, hp.1.1.2, hp.1.2, hp.2⟩
    unfold fetchHistoricalPercentages
    rw [hfind]
    have hef : (table.filter (fun r =>
        r.branch == b && r.moveType == mt && r.month == m)).isEmpty = false := by
      rw [Bool.eq_false_iff]
      intro he
      exact hne (List.isEmpty_iff.mp he)
    simp only [hef, Bool.false_eq_true, if_false]
  · intro hnil
    have hfind : table.find? (fun r2 =>
        r2.branch == b && r2.moveType == mt && r2.month == m && r2.day == d) = none := by
      rw [List.find?_eq_none]
      intro r hr hp
      simp only [Bool.and_eq_true, beq_iff_eq] at hp
      have : r ∈ table.filter (fun r =>
          r.branch == b && r.moveType == mt && r.month == m) := by
        rw [List.mem_filter]
        exact ⟨hr, by simp [hp.1.1.1, hp.1.1.2, hp.1.2]⟩
      rw [hnil] at this
      exact List.not_mem_nil r this
    unfold fetchHistoricalPercentages
    rw [hfind, hnil]
    rfl

theorem percentage_lookup_three_tiers_witness :
    fetchHistoricalPercentages tblC1 "A" "L" 6 15 = 40 ∧
    fetchHistoricalPercentages tblC6 "A" "L" 7 1 = 1 :=
  ⟨(percentage_lookup_three_tiers tblC1 "A" "L" 6 15 (by unfold PTableWF; decide)).1
      { branch := "A", moveType := "L", month := 6, day := 15, avgPercentage := 40 }
      (by decide) rfl rfl rfl rfl,
    (percentage_lookup_three_tiers tblC6 "A" "L" 7 1 (by unfold PTableWF; decide)).2.2
      (by decide)⟩

theorem moveTypeInvalid_false_iff (table : PTable) (mt? : Option String) :
    moveTypeInvalid table mt? = false ↔
      (∀ mt, mt? = some mt → mt ∈ table.map (fun r => r.moveType)) := by
  cases mt? with
  | none => simp [moveTypeInvalid]
  | some mt => simp [moveTypeInvalid]

theorem string_contains_iff (l : List String) (a : String) :
    l.contains a = true ↔ a ∈ l := by
  simp

theorem forecastMove_isOk_iff_bool (table : PTable) (models : ModelCache)
    (today : Nat) (inp : ForecastInput) :
    (∃ r, forecastMove table models today inp = .ok r) ↔
      ((∃ dt, parseDate inp.date = some dt ∧ ¬ horizonDN < toDayNumber dt) ∧
        ((table.map (fun r => r.branch)).contains inp.branch = true) ∧
        moveTypeInvalid table inp.moveType = false ∧
        (∃ model, models.lookup inp.branch = some model)) := by
  unfold forecastMove
  cases hp : parseDate inp.date with
  | none =>
    dsimp only
    constructor
    · rintro ⟨r, hr⟩
      exact Except.noConfusion hr
    · rintro ⟨⟨dt2, hdt2, _⟩, _⟩
      exact Option.noConfusion hdt2
  | some dt =>
    dsimp only
    by_cases h2 : horizonDN < toDayNumber dt
    · rw [if_pos h2]
      constructor
      · rintro ⟨r, hr⟩
        exact Except.noConfusion hr
      · rintro ⟨⟨dt2, hdt2, hnlt⟩, _⟩
        injection hdt2 with he
        exact absurd (he ▸ h2) hnlt
    · rw [if_neg h2]
      by_cases h3 : ((table.map (fun r => r.branch)).contains inp.branch) = true
      · rw [if_neg (show ¬ ((!((table.map (fun r => r.branch)).contains inp.branch)) = true) by
          rw [h3]; exact fun hc => Bool.noConfusion hc)]
        by_cases h4 : moveTypeInvalid table inp.moveType = false
        · rw [if_neg (show ¬ (moveTypeInvalid table inp.moveType = true) by
            rw [h4]; exact fun hc => Bool.noConfusion hc)]
          cases hm : models.lookup inp.branch with
          | none =>
            constructor
            · rintro ⟨r, hr⟩
              exact Except.noConfusion hr
            · rintro ⟨_, _, _, model, hmm2⟩
              exact Option.noConfusion hmm2
          | some model =>
            constructor
            · intro _
              exact ⟨⟨dt, rfl, h2⟩, h3, h4, model, rfl⟩
            · intro _
              exact ⟨forecastCore table model today dt inp.branch inp.moveType, rfl⟩
        · have h4t : moveTypeInvalid table inp.moveType = true := by
            cases hmt : moveTypeInvalid table inp.moveType
            · exact absurd hmt h4
            · rfl
          rw [if_pos h4t]
          constructor
          · rintro ⟨r, hr⟩
            exact Except.noConfusion hr
          · rintro ⟨_, _, h4c, _⟩
            exact absurd h4c h4
      · have h3f : ((table.map (fun r => r.branch)).contains inp.branch) = false := by
          cases hc : (table.map (fun r => r.branch)).contains inp.branch
          · rfl
          · exact absurd hc h3
        rw [if_pos (show (!((table.map (fun r => r.branch)).contains inp.branch)) = true by
          rw [h3f]; rfl)]
        constructor
        · rintro ⟨r, hr⟩
          exact Except.noConfusion hr
        · rintro ⟨_, h3c, _⟩
          exact absurd h3c h3

/-- C9 (amended): `forecast_move` succeeds exactly when the date parses, is
on or before the hard horizon, the branch appears in the seasonal table, any
supplied move type appears in the seasonal table, and a model is cached for
the branch.  Every failure — the no-model case included — is raised as the
same `ValueError` (surfaced by the endpoint as HTTP 400), distinguished only
by its message, not as a distinct error type. -/
theorem validation_and_model_errors (table : PTable) (models : ModelCache)
    (today : Nat) (inp : ForecastInput) :
    (∃ r, forecastMove table models today inp = .ok r) ↔
      ((∃ dt, parseDate inp.date = some dt ∧ toDayNumber dt ≤ horizonDN) ∧
        inp.branch ∈ table.map (fun r => r.branch) ∧
        (∀ mt, inp.moveType = some mt → mt ∈ table.map (fun r => r.moveType)) ∧
        (∃ model, models.lookup inp.branch = some model)) := by
  rw [forecastMove_isOk_iff_bool]
  rw [moveTypeInvalid_false_iff, string_contains_iff]
  constructor
  · rintro ⟨⟨dt, hdt, hnlt⟩, hb, hmt2, hm⟩
    exact ⟨⟨dt, hdt, Nat.le_of_not_lt hnlt⟩, hb, hmt2, hm⟩
  · rintro ⟨⟨dt, hdt, hle⟩, hb, hmt2, hm⟩
    exact ⟨⟨dt, hdt, Nat.not_lt.mpr hle⟩, hb, hmt2, hm⟩

/-- The table and models of the C9 counterexample: branch A has seasonal
data but no cached model; only branch Z has a model. -/
def tblC9 : PTable :=
  [{ branch := "A", moveType := "L", month := 6, day := 15, avgPercentage := 40 }]

/-- A model cache with a model only for branch Z. -/
def modelsC9 : ModelCache := [("Z", fun _ => 1)]

/-- C9 counterexample: with seasonal data for branch A but no model for it,
the request fails — but as the very same `ValueError` / HTTP 400 channel as
a validation failure (here: unknown branch B), only the message differs.
There is no distinct `ModelUnavailableError` in the code: `forecast_move`
raises `ValueError` for all five failure cases and the endpoint maps
`ValueError` to status 400. -/
theorem model_unavailable_not_distinct :
    forecastMove tblC9 modelsC9 todayC1
      { date := "2025-06-15", branch := "A", moveType := none } =
      .error ("No pre-trained model for branch A") ∧
    forecastEndpointStatus tblC9 modelsC9 todayC1
      { date := "2025-06-15", branch := "A", moveType := none } = 400 ∧
    forecastEndpointStatus tblC9 modelsC9 todayC1
      { date := "2025-06-15", branch := "B", moveType := none } = 400 ∧
    forecastEndpointStatus tblC9 modelsC9 todayC1
      { date := "garbage", branch := "A", moveType := none } = 400 :=
  ⟨rfl, by decide, by decide, by decide⟩

/-- C10 (amended): with a valid branch, move type and model, a date string
that parses and is on or before the hard horizon is always accepted — there
is no lower bound, so dates arbitrarily far in the past validate — and for a
requested date at most 7 days after today (any past date included) the
reported window is `[today, min(today + 14, 2025-12-31)]`: the claim text
omits the clamp, but the window end is the horizon, not `today + 14`, when
today is within 14 days of the horizon.  Only unparseable strings and dates
beyond the horizon are rejected. -/
theorem past_dates_accepted_window_clamped (table : PTable) (models : ModelCache)
    (today : Nat) (inp : ForecastInput) (model : Predictor)
    (h3 : ((table.map (fun r => r.branch)).contains inp.branch) = true)
    (h4 : moveTypeInvalid table inp.moveType = false)
    (h5 : models.lookup inp.branch = some model) :
    (∀ dt, parseDate inp.date = some dt → toDayNumber dt ≤ horizonDN →
      forecastMove table models today inp =
        .ok (forecastCore table model today dt inp.branch inp.moveType) ∧
      ((toDayNumber dt : Int) - today ≤ 7 →
        (forecastCore table model today dt inp.branch inp.moveType).windowStart =
          (today : Int) ∧
        (forecastCore table model today dt inp.branch inp.moveType).windowEnd =
          (if (horizonDN : Int) < (today : Int) + 14 then (horizonDN : Int)
            else (today : Int) + 14))) ∧
    (parseDate inp.date = none →
      forecastMove table models today inp =
        .error ("Invalid date format. Use YYYY-MM-DD")) ∧
    (∀ dt, parseDate inp.date = some dt → horizonDN < toDayNumber dt →
      forecastMove table models today inp =
        .error ("Date must be on or before December 31, 2025")) := by
  refine ⟨?_, ?_, ?_⟩
  · intro dt hp hle
    refine ⟨forecastMove_ok table models today inp dt model hp
      (Nat.not_lt.mpr hle) h3 h4 h5, ?_⟩
    intro hdft
    constructor
    · show windowStartD today (toDayNumber dt) = (today : Int)
      unfold windowStartD
      rw [if_pos hdft]
    · show windowEndD today (toDayNumber dt) = _
      unfold windowEndD
      rw [if_pos hdft]
  · intro hp
    unfold forecastMove
    rw [hp]
  · intro dt hp hlt
    unfold forecastMove
    rw [hp]
    dsimp only
    rw [if_pos hlt]

theorem past_dates_accepted_window_clamped_witness :
    (∀ dt, parseDate ("2025-01-01") = some dt → toDayNumber dt ≤ horizonDN →
      forecastMove tblC1 modelsC1 todayC1
          { date := "2025-01-01", branch := "A", moveType := none } =
        .ok (forecastCore tblC1 (fun _ => 10) todayC1 dt "A" none) ∧
      ((toDayNumber dt : Int) - todayC1 ≤ 7 →
        (forecastCore tblC1 (fun _ => 10) todayC1 dt "A" none).windowStart =
          (todayC1 : Int) ∧
        (forecastCore tblC1 (fun _ => 10) todayC1 dt "A" none).windowEnd =
          (if (horizonDN : Int) < (todayC1 : Int) + 14 then (horizonDN : Int)
            else (todayC1 : Int) + 14))) ∧
    (parseDate ("2025-01-01") = none →
      forecastMove tblC1 modelsC1 todayC1
          { date := "2025-01-01", branch := "A", moveType := none } =
        .error ("Invalid date format. Use YYYY-MM-DD")) ∧
    (∀ dt, parseDate ("2025-01-01") = some dt → horizonDN < toDayNumber dt →
      forecastMove tblC1 modelsC1 todayC1
          { date := "2025-01-01", branch := "A", moveType := none } =
        .error ("Date must be on or before December 31, 2025")) :=
  past_dates_accepted_window_clamped tblC1 modelsC1 todayC1
    { date := "2025-01-01", branch := "A", moveType := none } (fun _ => 10)
    (by decide) (by decide) rfl

/-- 2025-12-25 as a day number. -/
def todayC10 : Nat := toDayNumber { year := 2025, month := 12, day := 25 }

/-- C10 counterexample: with today = 2025-12-25, the past date 2025-01-01
parses, is before the horizon and is accepted — but the emitted window is
`[today, 2025-12-31]` (7 days), not `[today, today + 14]`: the horizon clamp
applies even in the within-7-days branch of the window rule. -/
theorem past_date_window_claim_false :
    parseDate ("2025-01-01") = some { year := 2025, month := 1, day := 1 } ∧
    toDayNumber { year := 2025, month := 1, day := 1 } ≤ horizonDN ∧
    (forecastMove tblC1 modelsC1 todayC10
        { date := "2025-01-01", branch := "A", moveType := none }).toOption.map
        (fun r => (r.windowStart, r.windowEnd)) =
      some ((todayC10 : Int), (horizonDN : Int)) ∧
    (horizonDN : Int) ≠ (todayC10 : Int) + 14 ∧
    (forecastMove tblC1 modelsC1 todayC10
        { date := "2025-01-01", branch := "A", moveType := none }).toOption.map
        (fun r => r.predictedSummary.length) = some 7 := by
  refine ⟨by decide, by decide, by decide, by decide, by decide⟩
